import Mathlib

/-!
Shallow embedding of the livestock-price extraction pipeline
(`pdf_extractor.py`, `analisis_estacional.py`) and proofs about its
price cleaning, table classification, normalization, date resolution
and monthly aggregation.

Strings are modelled as Lean `String`/`List Char`; Python float values
produced by `float(...)` on decimal digit strings are modelled as `ℚ`;
`None` results are modelled with `Option`.
-/

namespace PreciosGanado

/-- Python `\s` whitespace (ASCII range), as used by `re` and `str.strip`. -/
def isPySpace (c : Char) : Bool :=
  c = ' ' || c = '\t' || c = '\n' || c = '\r' || c = '\x0b' || c = '\x0c'

/-- Python `str.lower()` on one character: ASCII letters plus the accented
uppercase letters that can occur in the Spanish headers. -/
def pyLowerChar (c : Char) : Char :=
  if c = 'Á' then 'á'
  else if c = 'É' then 'é'
  else if c = 'Í' then 'í'
  else if c = 'Ó' then 'ó'
  else if c = 'Ú' then 'ú'
  else if c = 'Ñ' then 'ñ'
  else if c = 'Ü' then 'ü'
  else c.toLower

/-- Python `str.lower()`. -/
def pyLower (s : String) : String := ⟨s.data.map pyLowerChar⟩

/-- Does the character list `p` occur as a prefix of `s`? -/
def startsWithChars : List Char → List Char → Bool
  | [], _ => true
  | _ :: _, [] => false
  | p :: ps, c :: cs => p = c && startsWithChars ps cs

/-- Does the character list `p` occur as a contiguous sublist of `s`?
This is Python `p in s` on strings. -/
def hasSubChars (p : List Char) : List Char → Bool
  | [] => startsWithChars p []
  | s@(_ :: rest) => startsWithChars p s || hasSubChars p rest

/-- Python `needle in hay` for strings. -/
def pyIn (needle hay : String) : Bool := hasSubChars needle.data hay.data

/-- Python `str.strip()` (whitespace trim on both ends). -/
def pyStrip (s : String) : String :=
  ⟨((s.data.dropWhile isPySpace).reverse.dropWhile isPySpace).reverse⟩

/-- Numeric value of a digit string, as Python `int` parsing of matched
digit groups. -/
def natOfDigits (l : List Char) : Nat :=
  l.foldl (fun n c => 10 * n + (c.toNat - 48)) 0

/-- Python `' '.join` on a list of strings (character-list level). -/
def joinSpaceData : List (List Char) → List Char
  | [] => []
  | [x] => x
  | x :: xs => x ++ ' ' :: joinSpaceData xs

/-- Python `' '.join` on a list of strings. -/
def joinSpace (l : List String) : String := ⟨joinSpaceData (l.map String.data)⟩

/-- Exact value of the decimal literal `i.f` (or `i` when `f` is empty),
the number `float(...)` denotes on the digit groups matched by
`clean_price`. -/
def ratOfDecimal (i f : List Char) : ℚ :=
  mkRat (natOfDigits i * 10 ^ f.length + natOfDigits f) (10 ^ f.length)

/-- The character class `[B/.\s,]` of `clean_price`'s `re.sub`: note that
it removes the decimal point `.` as well as `B`, `/`, whitespace and
commas. -/
def stripPriceChars (l : List Char) : List Char :=
  l.filter (fun c => !(c = 'B' || c = '/' || c = '.' || c = ',' || isPySpace c))

/-- `re.search(r'(\d+(?:\.\d+)?)', s)`: the leftmost maximal digit run,
optionally followed by a dot and a further digit run, returned as the
pair (integer digits, fraction digits). -/
def findNumParts : List Char → Option (List Char × List Char)
  | [] => none
  | c :: rest =>
    if c.isDigit then
      let intPart := c :: rest.takeWhile Char.isDigit
      let after := rest.dropWhile Char.isDigit
      let fracPart :=
        match after with
        | '.' :: d :: r2 => if d.isDigit then d :: r2.takeWhile Char.isDigit else []
        | _ => []
      some (intPart, fracPart)
    else findNumParts rest

/-- `PDFDataExtractor.clean_price`: empty input gives no value; otherwise
the characters `B`, `/`, `.`, `,` and whitespace are deleted and the first
`\d+(\.\d+)?` substring of the remainder is parsed as a number. -/
def clean_price (s : String) : Option ℚ :=
  if s = "" then none
  else
    match findNumParts (stripPriceChars s.data) with
    | some (i, f) => some (ratOfDecimal i f)
    | none => none

/-- A pandas DataFrame as built in `extract_tables_from_pdf`: column
header strings plus rows of cell strings. -/
structure DataFrame where
  columns : List String
  rows : List (List String)
  deriving DecidableEq, Repr

/-- pandas `df.empty` (no rows or no columns). -/
def dfEmpty (df : DataFrame) : Bool := df.rows.isEmpty || df.columns.isEmpty

def keywords_lugar : List String := ["lugar", "feria", "mercado", "ubicación", "sitio"]

def keywords_categoria : List String := ["categoría", "categoria", "tipo", "clase"]

def keywords_precio : List String := ["precio", "valor", "monto", "b/", "$"]

/-- `PDFDataExtractor.identify_table_type`: keyword search over the
space-joined lowercased column names (plus, for the location and category
keywords only, the lowercased first cell of the first row). -/
def identify_table_type (df : DataFrame) : String :=
  if dfEmpty df then "unknown"
  else
    let cols_lower := df.columns.map pyLower
    let first_col :=
      if df.rows.length > 0 then pyLower ((df.rows.headD []).headD "") else ""
    let has_lugar := keywords_lugar.any fun kw =>
      pyIn kw (joinSpace (cols_lower ++ [first_col]))
    let has_categoria := keywords_categoria.any fun kw =>
      pyIn kw (joinSpace (cols_lower ++ [first_col]))
    let has_precio := keywords_precio.any fun kw =>
      pyIn kw (joinSpace cols_lower)
    if has_lugar && has_precio then "por_lugar"
    else if has_categoria && has_precio then "por_categoria"
    else "general"

/-- A date value as produced by `datetime.strptime`. -/
structure PyDate where
  year : Nat
  month : Nat
  day : Nat
  deriving DecidableEq, Repr

/-- One entry of `tables_data` (the fields the normalizers read). -/
structure TableItem where
  date_from : Option PyDate
  date_to : Option PyDate
  pdf_filename : String
  table_type : String
  data : DataFrame
  deriving DecidableEq, Repr

/-- The normalized record schema emitted by the three normalizers. -/
structure PriceRecord where
  fecha_desde : Option PyDate
  fecha_hasta : Option PyDate
  lugar : String
  categoria : String
  precio : ℚ
  fuente_pdf : String
  tipo_tabla : String
  deriving DecidableEq, Repr

/-- The `precio = self.clean_price(...); if precio: records.append(...)`
pattern shared by the three normalizers: emit a record only when the
cleaned price exists and is truthy (nonzero). -/
def emitRecord (p? : Option ℚ) (mk : ℚ → PriceRecord) : Option PriceRecord :=
  match p? with
  | some precio => if precio = 0 then none else some (mk precio)
  | none => none

/-- `PDFDataExtractor._normalize_por_lugar` on one table. -/
def normalize_por_lugar (item : TableItem) (df : DataFrame) : List PriceRecord :=
  df.rows.flatMap fun row =>
    let pairs := df.columns.zip row
    let lugarHallado := (pairs.find? fun p =>
      (["lugar", "feria", "mercado"] : List String).any fun kw =>
        pyIn kw (pyLower p.1)).map (·.2)
    let lugar :=
      match lugarHallado with
      | some v => if v = "" then row.headD "" else v
      | none => row.headD ""
    pairs.filterMap fun p =>
      if (["precio", "valor", "b/", "$"] : List String).any
          (fun kw => pyIn kw (pyLower p.1)) then
        emitRecord (clean_price p.2) fun precio =>
          { fecha_desde := item.date_from
            fecha_hasta := item.date_to
            lugar := pyStrip lugar
            categoria := p.1
            precio := precio
            fuente_pdf := item.pdf_filename
            tipo_tabla := item.table_type }
      else none

/-- `PDFDataExtractor._normalize_por_categoria` on one table. -/
def normalize_por_categoria (item : TableItem) (df : DataFrame) : List PriceRecord :=
  df.rows.flatMap fun row =>
    let pairs := df.columns.zip row
    let categoriaHallada := (pairs.find? fun p =>
      (["categoría", "categoria", "tipo"] : List String).any fun kw =>
        pyIn kw (pyLower p.1)).map (·.2)
    let categoria :=
      match categoriaHallada with
      | some v => if v = "" then row.headD "" else v
      | none => row.headD ""
    pairs.filterMap fun p =>
      if p.1 ≠ df.columns.headD "" then
        emitRecord (clean_price p.2) fun precio =>
          { fecha_desde := item.date_from
            fecha_hasta := item.date_to
            lugar := if pyIn "precio" (pyLower p.1) then "General" else p.1
            categoria := pyStrip categoria
            precio := precio
            fuente_pdf := item.pdf_filename
            tipo_tabla := item.table_type }
      else none

/-- `PDFDataExtractor._normalize_general` on one table: first column is
the row identifier, the remaining columns are price candidates. -/
def normalize_general (item : TableItem) (df : DataFrame) : List PriceRecord :=
  df.rows.flatMap fun row =>
    let identifier := pyStrip (row.headD "")
    let col0 := pyLower (df.columns.headD "")
    ((df.columns.drop 1).zip (row.drop 1)).filterMap fun p =>
      emitRecord (clean_price p.2) fun precio =>
        { fecha_desde := item.date_from
          fecha_hasta := item.date_to
          lugar := if pyIn "lugar" col0 then identifier else p.1
          categoria := if pyIn "categ" col0 then identifier else p.1
          precio := precio
          fuente_pdf := item.pdf_filename
          tipo_tabla := item.table_type }

/-- Strategy dispatch of `PDFDataExtractor.normalize_data` for one item. -/
def normalizeItem (item : TableItem) : List PriceRecord :=
  if item.table_type = "por_lugar" then normalize_por_lugar item item.data
  else if item.table_type = "por_categoria" then normalize_por_categoria item item.data
  else normalize_general item item.data

/-- `PDFDataExtractor.normalize_data`. -/
def normalize_data (items : List TableItem) : List PriceRecord :=
  items.flatMap normalizeItem

/-! ## Date resolution from the filename

`extract_date_from_filename` runs `re.search` with the pattern
`(?:Del|del)?\s*(\d{1,2})-(\d{1,2})-(\d{2,4})\s*(?:al|a|-)?\s*(\d{1,2})-(\d{1,2})-(\d{2,4})`.
The matcher below hand-compiles exactly this pattern with Python `re`
semantics: leftmost match, greedy quantifiers (longer repetition counts
and earlier alternatives tried first) with full backtracking into the
rest of the pattern. -/

/-- The six captured groups of the filename date pattern. -/
abbrev DateCaps :=
  List Char × List Char × List Char × List Char × List Char × List Char

/-- Consume exactly the characters of `p` from the front of `s`. -/
def dropExact : List Char → List Char → Option (List Char)
  | [], s => some s
  | _ :: _, [] => none
  | p :: ps, c :: cs => if p = c then dropExact ps cs else none

/-- Consume exactly `n` digits from the front of `s`. -/
def digitsTake : Nat → List Char → Option (List Char × List Char)
  | 0, s => some ([], s)
  | _ + 1, [] => none
  | n + 1, c :: rest =>
    if c.isDigit then
      match digitsTake n rest with
      | some (ds, r) => some (c :: ds, r)
      | none => none
    else none

/-- `\d{lo,hi}` (greedy): try each repetition count in `lens` (given in
decreasing order), backtracking into the continuation `k`. -/
def tryLens (lens : List Nat) (s : List Char)
    (k : List Char → List Char → Option DateCaps) : Option DateCaps :=
  match lens with
  | [] => none
  | n :: ns =>
    (match digitsTake n s with
     | some (ds, r) => k ds r
     | none => none) <|> tryLens ns s k

/-- An optional alternation such as `(?:Del|del)?`: try each alternative
in order, backtracking into the continuation, and finally the empty
match. -/
def tryAlts (alts : List (List Char)) (s : List Char)
    (k : List Char → Option DateCaps) : Option DateCaps :=
  match alts with
  | [] => k s
  | a :: rest =>
    (match dropExact a s with
     | some r => k r
     | none => none) <|> tryAlts rest s k

/-- A literal character of the pattern. -/
def expectChar (c : Char) (s : List Char) (k : List Char → Option DateCaps) :
    Option DateCaps :=
  match s with
  | x :: r => if x = c then k r else none
  | [] => none

/-- `\s*` (greedy; safe without backtracking here because no continuation
of a `\s*` in this pattern can start with a whitespace character). -/
def dropPySpaces : List Char → List Char
  | [] => []
  | c :: r => if isPySpace c then dropPySpaces r else c :: r

/-- Attempt the date pattern at the current position. -/
def matchDatePattern (s : List Char) : Option DateCaps :=
  tryAlts [['D', 'e', 'l'], ['d', 'e', 'l']] s fun s1 =>
  tryLens [2, 1] (dropPySpaces s1) fun d1 s2 =>
  expectChar '-' s2 fun s3 =>
  tryLens [2, 1] s3 fun m1 s4 =>
  expectChar '-' s4 fun s5 =>
  tryLens [4, 3, 2] s5 fun y1 s6 =>
  tryAlts [['a', 'l'], ['a'], ['-']] (dropPySpaces s6) fun s7 =>
  tryLens [2, 1] (dropPySpaces s7) fun d2 s8 =>
  expectChar '-' s8 fun s9 =>
  tryLens [2, 1] s9 fun m2 s10 =>
  expectChar '-' s10 fun s11 =>
  tryLens [4, 3, 2] s11 fun y2 _ =>
  some (d1, m1, y1, d2, m2, y2)

/-- `re.search`: try the pattern at every position, leftmost match wins. -/
def reSearchDate : List Char → Option DateCaps
  | [] => matchDatePattern []
  | s@(_ :: rest) => matchDatePattern s <|> reSearchDate rest

/-- Gregorian leap year, as `datetime`. -/
def esBisiesto (y : Nat) : Bool := (y % 4 = 0 && y % 100 ≠ 0) || y % 400 = 0

/-- Length of a month, as validated by `datetime`. -/
def daysInMonth (y m : Nat) : Nat :=
  if m = 2 then (if esBisiesto y then 29 else 28)
  else if m = 4 || m = 6 || m = 9 || m = 11 then 30
  else 31

/-- Calendar validity of a day-month-year triple under `datetime`. -/
def esFechaValida (d m y : Nat) : Bool :=
  1 ≤ y && 1 ≤ m && m ≤ 12 && 1 ≤ d && d ≤ daysInMonth y m

/-- `datetime.strptime(f"{d}-{m}-{y}", "%d-%m-%Y")` on the captured digit
groups: `%Y` requires exactly four digits, and the constructed date must
be a valid calendar date (otherwise `ValueError`, modelled as `none`). -/
def strptimeDMY (ds ms ys : List Char) : Option PyDate :=
  let d := natOfDigits ds
  let m := natOfDigits ms
  let y := natOfDigits ys
  if ys.length = 4 && esFechaValida d m y then some ⟨y, m, d⟩ else none

/-- `PDFDataExtractor.extract_date_from_filename`: regex search, two-digit
year expansion to `20YY`, then `strptime` of both dates; any failure
yields `(None, None)`, modelled as `none`. -/
def extract_date_from_filename (filename : String) : Option (PyDate × PyDate) :=
  match reSearchDate filename.data with
  | some (d1, m1, y1, d2, m2, y2) =>
    let y1e := if y1.length = 2 then '2' :: '0' :: y1 else y1
    let y2e := if y2.length = 2 then '2' :: '0' :: y2 else y2
    match strptimeDMY d1 m1 y1e, strptimeDMY d2 m2 y2e with
    | some a, some b => some (a, b)
    | _, _ => none
  | none => none

/-! ## Seasonal analysis (`analisis_estacional.py`) -/

/-- One row of the records DataFrame as read by `analizar_por_mes`: the
derived month column and the price. -/
structure RegistroMes where
  mes : Nat
  precio : ℚ
  deriving DecidableEq, Repr

/-- pandas `mean` of a column. -/
def qMean (l : List ℚ) : ℚ := l.sum / l.length

/-- Sort a list of rationals ascending (stable merge sort). -/
def sortQ (l : List ℚ) : List ℚ := l.mergeSort fun a b => decide (a ≤ b)

/-- pandas `median` of a column: middle element of the sorted values, or
the average of the two middle elements for even length. -/
def qMedian (l : List ℚ) : ℚ :=
  let s := sortQ l
  let n := s.length
  if n = 0 then 0
  else if n % 2 = 1 then s.getD (n / 2) 0
  else (s.getD (n / 2 - 1) 0 + s.getD (n / 2) 0) / 2

/-- Round half to even at integer precision (numpy/pandas rounding). -/
def roundHalfEven (x : ℚ) : ℤ :=
  let f := ⌊x⌋
  let r := x - f
  if r < 1 / 2 then f
  else if 1 / 2 < r then f + 1
  else if f % 2 = 0 then f else f + 1

/-- pandas `.round(2)`. -/
def round2 (x : ℚ) : ℚ := (roundHalfEven (100 * x) : ℚ) / 100

/-- The distinct month keys, ascending, as produced by `groupby('mes')`. -/
def mesesPresentes (df : List RegistroMes) : List Nat :=
  ((df.map (·.mes)).dedup).mergeSort fun a b => decide (a ≤ b)

/-- The aggregates of one month group that claim C8 speaks about:
rounded mean, rounded median and record count of the month's prices. -/
def statsDeMes (df : List RegistroMes) (m : Nat) : ℚ × ℚ × Nat :=
  let ps := (df.filter fun r => r.mes = m).map (·.precio)
  (round2 (qMean ps), round2 (qMedian ps), ps.length)

/-- `analizar_por_mes`: group the records by month (groupby sorts the
month keys ascending) and aggregate each group. -/
def analizar_por_mes (df : List RegistroMes) : List (Nat × ℚ × ℚ × Nat) :=
  (mesesPresentes df).map fun m => (m, statsDeMes df m)

/-- One row of the per-month statistics table `precios_por_mes`: the
month index and the mean price (`Promedio`) column used by
`identificar_mejores_meses`. -/
structure FilaMes where
  mes : Nat
  promedio : ℚ
  deriving DecidableEq, Repr

/-- Ascending comparison on position-tagged rows: by `Promedio`, ties by
original row position. `nsmallest(3, 'Promedio')` with the default
`keep='first'` keeps, among equal values, the earlier rows. -/
def leAscFila (a b : Nat × FilaMes) : Bool :=
  decide (a.2.promedio < b.2.promedio) ||
    (decide (a.2.promedio = b.2.promedio) && decide (a.1 ≤ b.1))

/-- Descending comparison on position-tagged rows: by `Promedio`
descending, ties by original row position (`nlargest` keeps earlier rows
among equal values). -/
def leDescFila (a b : Nat × FilaMes) : Bool :=
  decide (b.2.promedio < a.2.promedio) ||
    (decide (a.2.promedio = b.2.promedio) && decide (a.1 ≤ b.1))

/-- pandas `nsmallest(n, 'Promedio')` with `keep='first'`. -/
def nsmallestProm (n : Nat) (t : List FilaMes) : List FilaMes :=
  ((t.enum.mergeSort leAscFila).take n).map (·.2)

/-- pandas `nlargest(n, 'Promedio')` with `keep='first'`. -/
def nlargestProm (n : Nat) (t : List FilaMes) : List FilaMes :=
  ((t.enum.mergeSort leDescFila).take n).map (·.2)

/-- `identificar_mejores_meses`: the three lowest-mean months (buy) and
the three highest-mean months (sell). -/
def identificar_mejores_meses (t : List FilaMes) : List FilaMes × List FilaMes :=
  (nsmallestProm 3 t, nlargestProm 3 t)

/-- The classification rule as the spec states it, amended: location and
category keywords are looked up in headers plus the first data cell, but
the price keyword only in the headers. -/
def clasificacionEsperada (df : DataFrame) : String :=
  let hdrs := df.columns.map pyLower
  let primera := pyLower ((df.rows.headD []).headD "")
  let tokens := hdrs ++ [primera]
  let hayLugar := keywords_lugar.any fun kw => tokens.any fun s => pyIn kw s
  let hayCategoria := keywords_categoria.any fun kw => tokens.any fun s => pyIn kw s
  let hayPrecio := keywords_precio.any fun kw => hdrs.any fun s => pyIn kw s
  if hayLugar && hayPrecio then "por_lugar"
  else if hayCategoria && hayPrecio then "por_categoria"
  else "general"

/-! ## Helper lemmas -/

theorem ratOfDecimal_nonneg (i f : List Char) : 0 ≤ ratOfDecimal i f := by
  unfold ratOfDecimal
  rw [Rat.mkRat_eq_div]
  positivity

theorem clean_price_nonneg {s : String} {q : ℚ} (h : clean_price s = some q) :
    0 ≤ q := by
  unfold clean_price at h
  split at h
  · exact absurd h (by simp)
  · cases hf : findNumParts (stripPriceChars s.data) with
    | none => rw [hf] at h; exact absurd h (by simp)
    | some pr =>
      rw [hf] at h
      obtain ⟨i, f⟩ := pr
      simp only [Option.some.injEq] at h
      rw [← h]
      exact ratOfDecimal_nonneg i f

theorem startsWith_append_sep (kw x y : List Char) (h : ∀ c ∈ kw, c ≠ ' ') :
    startsWithChars kw (x ++ ' ' :: y) = startsWithChars kw x := by
  induction kw generalizing x with
  | nil => simp [startsWithChars]
  | cons k ks ih =>
    cases x with
    | nil =>
      have hk : k ≠ ' ' := h k (by simp)
      simp [startsWithChars, hk]
    | cons c xs =>
      simp only [List.cons_append, startsWithChars, List.append_eq]
      rw [ih xs fun d hd => h d (by simp [hd])]

theorem hasSub_append_sep (kw x y : List Char) (hne : kw ≠ [])
    (h : ∀ c ∈ kw, c ≠ ' ') :
    hasSubChars kw (x ++ ' ' :: y) = (hasSubChars kw x || hasSubChars kw y) := by
  induction x with
  | nil =>
    obtain ⟨k, ks, rfl⟩ : ∃ k ks, kw = k :: ks := by
      cases kw with
      | nil => exact absurd rfl hne
      | cons k ks => exact ⟨k, ks, rfl⟩
    have hk : k ≠ ' ' := h k (by simp)
    simp [hasSubChars, startsWithChars, hk]
  | cons c xs ih =>
    simp only [List.cons_append, hasSubChars, List.append_eq]
    rw [show c :: (xs ++ ' ' :: y) = (c :: xs) ++ ' ' :: y from rfl,
      startsWith_append_sep _ _ _ h, ih]
    simp [hasSubChars, Bool.or_assoc]

theorem pyIn_joinSpace (kw : String) (l : List String) (hne : kw.data ≠ [])
    (h : ∀ c ∈ kw.data, c ≠ ' ') :
    pyIn kw (joinSpace l) = l.any fun s => pyIn kw s := by
  induction l with
  | nil =>
    obtain ⟨k, ks, hkw⟩ : ∃ k ks, kw.data = k :: ks := by
      cases hd : kw.data with
      | nil => exact absurd hd hne
      | cons k ks => exact ⟨k, ks, rfl⟩
    simp [pyIn, joinSpace, joinSpaceData, hasSubChars, startsWithChars, hkw]
  | cons x rest ih =>
    cases rest with
    | nil => simp [pyIn, joinSpace, joinSpaceData]
    | cons y ys =>
      have hj : (joinSpace (x :: y :: ys)).data
          = x.data ++ ' ' :: (joinSpace (y :: ys)).data := rfl
      simp only [pyIn] at ih ⊢
      rw [hj, hasSub_append_sep _ _ _ hne h, ih]
      simp

theorem any_pyIn_joinSpace (kws : List String) (l : List String)
    (h : ∀ kw ∈ kws, kw.data ≠ [] ∧ ∀ c ∈ kw.data, c ≠ ' ') :
    (kws.any fun kw => pyIn kw (joinSpace l))
      = kws.any fun kw => l.any fun s => pyIn kw s := by
  induction kws with
  | nil => rfl
  | cons k ks ih =>
    simp only [List.any_cons]
    rw [pyIn_joinSpace k l (h k (by simp)).1 (h k (by simp)).2,
      ih fun kw hkw => h kw (by simp [hkw])]

/-! ## C1 -/

/-- C1: the claim is false on the code: `clean_price` deletes the decimal
point together with the currency markers (the character class `[B/.\s,]`
contains `.`), so `B/.1,234.56` parses to `123456`, not to `1234.56` as
the spec states. -/
theorem clean_price_on_currency_format :
    clean_price "B/.1,234.56" = some 123456 ∧ (123456 : ℚ) ≠ 1234.56 := by
  constructor
  · decide
  · norm_num

/-! ## C2 -/

/-- C2: on the header row `["Lugar", "Precio Novillo"]` with data row
`["Divisa", "150.00"]` the classifier indeed returns the by-location
type and normalization emits exactly one record with lugar `"Divisa"`
and categoria `"Precio Novillo"`, but its precio is `15000`, not `150`:
`clean_price` strips the decimal point of `"150.00"`. -/
theorem normalize_por_lugar_divisa_row :
    identify_table_type ⟨["Lugar", "Precio Novillo"], [["Divisa", "150.00"]]⟩
      = "por_lugar" ∧
    normalize_por_lugar
        ⟨none, none, "t.pdf", "por_lugar", ⟨["Lugar", "Precio Novillo"], [["Divisa", "150.00"]]⟩⟩
        ⟨["Lugar", "Precio Novillo"], [["Divisa", "150.00"]]⟩
      = [⟨none, none, "Divisa", "Precio Novillo", 15000, "t.pdf", "por_lugar"⟩] ∧
    (15000 : ℚ) ≠ 150 := by
  refine ⟨by decide, by decide, by norm_num⟩

/-! ## C3 -/

/-- C3 counterexample: a table with a location keyword in the headers and
a price keyword only in the first data cell is classified `"general"`,
not `"por_lugar"`: `identify_table_type` searches the price keywords in
the joined column headers only. -/
theorem identify_first_cell_price_keyword_insufficient :
    identify_table_type ⟨["Lugar", "Dato"], [["precio", "5"]]⟩ = "general" ∧
      "general" ≠ "por_lugar" := by
  refine ⟨by decide, by decide⟩

/-- C3 amended: on every non-empty table the classifier decides exactly
by the amended rule: location/category keywords are searched in the
lowercased headers plus the lowercased first data cell, the price
keywords in the lowercased headers only, with by-location taking
precedence over by-category and `"general"` as the fallback. -/
theorem identify_table_type_spec (df : DataFrame) (h : dfEmpty df = false) :
    identify_table_type df = clasificacionEsperada df := by
  have hrows : df.rows.length > 0 := by
    rcases hr : df.rows with _ | ⟨r0, rs⟩
    · simp [dfEmpty, hr] at h
    · simp
  simp only [identify_table_type, clasificacionEsperada]
  rw [h]
  simp only [Bool.false_eq_true, if_false]
  rw [if_pos hrows,
    any_pyIn_joinSpace _ _ (by decide), any_pyIn_joinSpace _ _ (by decide),
    any_pyIn_joinSpace _ _ (by decide)]

/-- C3 amended, witness. -/
theorem identify_table_type_spec_witness :
    identify_table_type ⟨["Lugar", "Precio"], [["x", "1"]]⟩
      = clasificacionEsperada ⟨["Lugar", "Precio"], [["x", "1"]]⟩ :=
  identify_table_type_spec ⟨["Lugar", "Precio"], [["x", "1"]]⟩ (by decide)

/-! ## C4 -/

/-- C4 counterexample: the classifier returns `"unknown"` on an empty
table, not the generic classification `"general"`. -/
theorem identify_empty_table_not_general :
    identify_table_type ⟨["Lugar", "Precio Novillo"], []⟩ = "unknown" ∧
      "unknown" ≠ "general" := by
  refine ⟨by decide, by decide⟩

/-- C4 amended: an empty table is classified `"unknown"` (not an error),
and `normalize_data` routes any `"unknown"`-typed table through the
generic normalization strategy. -/
theorem identify_empty_table_unknown (df : DataFrame) (item : TableItem)
    (h : dfEmpty df = true) (hitem : item.table_type = "unknown") :
    identify_table_type df = "unknown" ∧
      normalizeItem item = normalize_general item item.data := by
  constructor
  · unfold identify_table_type
    rw [h]
    rfl
  · unfold normalizeItem
    rw [hitem]
    rfl

/-- C4 amended, witness. -/
theorem identify_empty_table_unknown_witness :
    identify_table_type ⟨["A"], []⟩ = "unknown" ∧
      normalizeItem ⟨none, none, "p.pdf", "unknown", ⟨["A"], []⟩⟩
        = normalize_general ⟨none, none, "p.pdf", "unknown", ⟨["A"], []⟩⟩ ⟨["A"], []⟩ :=
  identify_empty_table_unknown ⟨["A"], []⟩ ⟨none, none, "p.pdf", "unknown", ⟨["A"], []⟩⟩
    (by decide) (by decide)

/-! ## C5 -/

/-- C5: end-to-end on the one-table input with header
`["Categoría", "Mercado A", "Mercado B"]` and data row
`["Ternera", "100", "110"]`: the table classifies as `"general"` and the
pipeline produces exactly the two records
(Ternera, Mercado A, 100) and (Ternera, Mercado B, 110). -/
theorem pipeline_general_table_two_records :
    identify_table_type ⟨["Categoría", "Mercado A", "Mercado B"], [["Ternera", "100", "110"]]⟩
      = "general" ∧
    normalize_data
        [⟨none, none, "x.pdf",
          identify_table_type ⟨["Categoría", "Mercado A", "Mercado B"], [["Ternera", "100", "110"]]⟩,
          ⟨["Categoría", "Mercado A", "Mercado B"], [["Ternera", "100", "110"]]⟩⟩]
      = [⟨none, none, "Mercado A", "Ternera", 100, "x.pdf", "general"⟩,
         ⟨none, none, "Mercado B", "Ternera", 110, "x.pdf", "general"⟩] := by
  refine ⟨by decide, by decide⟩

/-! ## C10 -/

/-- C10: any value `clean_price` returns is non-negative (the extraction
regex matches an unsigned digit run), and the input `"-150"` in
particular parses to the positive value `150`, not a negative price. -/
theorem clean_price_nonnegative :
    (∀ (s : String) (q : ℚ), clean_price s = some q → 0 ≤ q) ∧
      clean_price "-150" = some 150 := by
  refine ⟨fun s q h => clean_price_nonneg h, by decide⟩

/-- C10 witness. -/
theorem clean_price_nonnegative_witness : (0 : ℚ) ≤ 150 :=
  clean_price_nonnegative.1 "-150" 150 (by decide)

/-! ## C7 -/

theorem emitRecord_eq_some {p? : Option ℚ} {mk : ℚ → PriceRecord} {r : PriceRecord}
    (h : emitRecord p? mk = some r) : ∃ q, p? = some q ∧ q ≠ 0 ∧ r = mk q := by
  unfold emitRecord at h
  split at h
  · rename_i precio
    split at h
    · exact absurd h (by simp)
    · rename_i hne
      simp only [Option.some.injEq] at h
      exact ⟨precio, rfl, hne, h.symm⟩
  · exact absurd h (by simp)

theorem precio_pos_por_lugar {item : TableItem} {df : DataFrame} {r : PriceRecord}
    (h : r ∈ normalize_por_lugar item df) : 0 < r.precio := by
  simp only [normalize_por_lugar, List.mem_flatMap, List.mem_filterMap] at h
  obtain ⟨row, -, p, -, hp⟩ := h
  split at hp
  · obtain ⟨q, hcp, hne, hr⟩ := emitRecord_eq_some hp
    rw [hr]
    exact lt_of_le_of_ne (clean_price_nonneg hcp) (Ne.symm hne)
  · exact absurd hp (by simp)

theorem precio_pos_por_categoria {item : TableItem} {df : DataFrame} {r : PriceRecord}
    (h : r ∈ normalize_por_categoria item df) : 0 < r.precio := by
  simp only [normalize_por_categoria, List.mem_flatMap, List.mem_filterMap] at h
  obtain ⟨row, -, p, -, hp⟩ := h
  split at hp
  · obtain ⟨q, hcp, hne, hr⟩ := emitRecord_eq_some hp
    rw [hr]
    exact lt_of_le_of_ne (clean_price_nonneg hcp) (Ne.symm hne)
  · exact absurd hp (by simp)

theorem precio_pos_general {item : TableItem} {df : DataFrame} {r : PriceRecord}
    (h : r ∈ normalize_general item df) : 0 < r.precio := by
  simp only [normalize_general, List.mem_flatMap, List.mem_filterMap] at h
  obtain ⟨row, -, p, -, hp⟩ := h
  obtain ⟨q, hcp, hne, hr⟩ := emitRecord_eq_some hp
  rw [hr]
  exact lt_of_le_of_ne (clean_price_nonneg hcp) (Ne.symm hne)

/-- C7: whatever the classification and normalization strategy, every
record emitted by `normalize_data` carries a positive price; cells whose
cleaning fails (or yields the falsy value 0) contribute no record. -/
theorem normalize_data_precio_positive (items : List TableItem) (r : PriceRecord)
    (h : r ∈ normalize_data items) : 0 < r.precio := by
  simp only [normalize_data, List.mem_flatMap] at h
  obtain ⟨item, -, hr⟩ := h
  unfold normalizeItem at hr
  split at hr
  · exact precio_pos_por_lugar hr
  · split at hr
    · exact precio_pos_por_categoria hr
    · exact precio_pos_general hr

/-- C7 witness. -/
theorem normalize_data_precio_positive_witness : (0 : ℚ) < 15000 :=
  normalize_data_precio_positive
    [⟨none, none, "t.pdf", "por_lugar", ⟨["Lugar", "Precio Novillo"], [["Divisa", "150.00"]]⟩⟩]
    ⟨none, none, "Divisa", "Precio Novillo", 15000, "t.pdf", "por_lugar"⟩
    (by decide)

/-! ## C8 -/

theorem mergeSort_le_eq_of_perm {α : Type} [LinearOrder α] {l1 l2 : List α}
    (h : l1.Perm l2) :
    l1.mergeSort (fun a b => decide (a ≤ b))
      = l2.mergeSort (fun a b => decide (a ≤ b)) := by
  have hsorted : ∀ l : List α,
      List.Sorted (· ≤ ·) (l.mergeSort (fun a b => decide (a ≤ b))) := by
    intro l
    have := @List.sorted_mergeSort α (fun a b : α => decide (a ≤ b))
      (fun a b c hab hbc => by
        simp only [decide_eq_true_eq] at *
        exact le_trans hab hbc)
      (fun a b => by
        simp only [Bool.or_eq_true, decide_eq_true_eq]
        exact le_total a b) l
    exact this.imp fun h => by simpa using h
  exact List.eq_of_perm_of_sorted
    ((List.mergeSort_perm l1 _).trans (h.trans (List.mergeSort_perm l2 _).symm))
    (hsorted l1) (hsorted l2)

/-- C8: monthly aggregation is permutation invariant: permuting the
record list does not change `analizar_por_mes` (the per-month rounded
mean, rounded median and count, over the ascending list of months
present). -/
theorem analizar_por_mes_perm_invariant (l1 l2 : List RegistroMes)
    (h : l1.Perm l2) : analizar_por_mes l1 = analizar_por_mes l2 := by
  have hmes : mesesPresentes l1 = mesesPresentes l2 :=
    mergeSort_le_eq_of_perm ((h.map _).dedup)
  have hstat : ∀ m, statsDeMes l1 m = statsDeMes l2 m := by
    intro m
    have hp : ((l1.filter fun r => r.mes = m).map (·.precio)).Perm
        ((l2.filter fun r => r.mes = m).map (·.precio)) :=
      (h.filter _).map _
    simp only [statsDeMes, qMean, qMedian, sortQ]
    rw [hp.sum_eq, hp.length_eq, mergeSort_le_eq_of_perm hp]
  unfold analizar_por_mes
  rw [hmes]
  exact List.map_congr_left fun m _ => by rw [hstat m]

/-- C8 witness. -/
theorem analizar_por_mes_perm_invariant_witness :
    analizar_por_mes [⟨1, 20⟩, ⟨1, 10⟩, ⟨2, 7⟩]
      = analizar_por_mes [⟨1, 10⟩, ⟨1, 20⟩, ⟨2, 7⟩] :=
  analizar_por_mes_perm_invariant _ _ (List.Perm.swap _ _ _)

/-! ## C9 -/

theorem leAscFila_trans (a b c : Nat × FilaMes) (hab : leAscFila a b = true)
    (hbc : leAscFila b c = true) : leAscFila a c = true := by
  simp only [leAscFila, Bool.or_eq_true, Bool.and_eq_true, decide_eq_true_eq] at *
  rcases hab with h1 | ⟨h1, h1i⟩ <;> rcases hbc with h2 | ⟨h2, h2i⟩
  · exact Or.inl (h1.trans h2)
  · exact Or.inl (by rw [← h2]; exact h1)
  · exact Or.inl (by rw [h1]; exact h2)
  · exact Or.inr ⟨h1.trans h2, h1i.trans h2i⟩

theorem leAscFila_total (a b : Nat × FilaMes) :
    (leAscFila a b || leAscFila b a) = true := by
  simp only [leAscFila, Bool.or_eq_true, Bool.and_eq_true, decide_eq_true_eq]
  rcases lt_trichotomy a.2.promedio b.2.promedio with h | h | h
  · exact Or.inl (Or.inl h)
  · rcases Nat.le_total a.1 b.1 with hi | hi
    · exact Or.inl (Or.inr ⟨h, hi⟩)
    · exact Or.inr (Or.inr ⟨h.symm, hi⟩)
  · exact Or.inr (Or.inl h)

theorem leDescFila_trans (a b c : Nat × FilaMes) (hab : leDescFila a b = true)
    (hbc : leDescFila b c = true) : leDescFila a c = true := by
  simp only [leDescFila, Bool.or_eq_true, Bool.and_eq_true, decide_eq_true_eq] at *
  rcases hab with h1 | ⟨h1, h1i⟩ <;> rcases hbc with h2 | ⟨h2, h2i⟩
  · exact Or.inl (h2.trans h1)
  · exact Or.inl (by rw [← h2]; exact h1)
  · exact Or.inl (by rw [h1]; exact h2)
  · exact Or.inr ⟨h1.trans h2, h1i.trans h2i⟩

theorem leDescFila_total (a b : Nat × FilaMes) :
    (leDescFila a b || leDescFila b a) = true := by
  simp only [leDescFila, Bool.or_eq_true, Bool.and_eq_true, decide_eq_true_eq]
  rcases lt_trichotomy a.2.promedio b.2.promedio with h | h | h
  · exact Or.inr (Or.inl h)
  · rcases Nat.le_total a.1 b.1 with hi | hi
    · exact Or.inl (Or.inr ⟨h, hi⟩)
    · exact Or.inr (Or.inr ⟨h.symm, hi⟩)
  · exact Or.inl (Or.inl h)

theorem sorted_take_drop (le : Nat × FilaMes → Nat × FilaMes → Bool)
    (htrans : ∀ a b c, le a b = true → le b c = true → le a c = true)
    (htotal : ∀ a b, (le a b || le b a) = true) (t : List FilaMes) :
    ((t.enum.mergeSort le).take 3 ++ (t.enum.mergeSort le).drop 3).Perm t.enum ∧
    ((t.enum.mergeSort le).take 3).length = min 3 t.length ∧
    ∀ a ∈ (t.enum.mergeSort le).take 3, ∀ b ∈ (t.enum.mergeSort le).drop 3,
      le a b = true ∧ a.1 ≠ b.1 := by
  have hperm : (t.enum.mergeSort le).Perm t.enum := List.mergeSort_perm _ _
  have htd : (t.enum.mergeSort le).take 3 ++ (t.enum.mergeSort le).drop 3
      = t.enum.mergeSort le := List.take_append_drop 3 _
  refine ⟨?_, ?_, ?_⟩
  · rw [htd]; exact hperm
  · rw [List.length_take, hperm.length_eq, List.enum_length]
  · have hsort : List.Pairwise (fun a b => le a b = true) (t.enum.mergeSort le) :=
      List.sorted_mergeSort htrans htotal _
    have hnd : List.Pairwise (fun a b : Nat × FilaMes => a.1 ≠ b.1)
        (t.enum.mergeSort le) := by
      have h1 : ((t.enum.mergeSort le).map Prod.fst).Nodup := by
        rw [((hperm.map Prod.fst).nodup_iff), List.enum_map_fst]
        exact List.nodup_range _
      exact List.pairwise_map.mp h1
    rw [← htd] at hsort hnd
    intro a ha b hb
    exact ⟨(List.pairwise_append.mp hsort).2.2 a ha b hb,
      (List.pairwise_append.mp hnd).2.2 a ha b hb⟩

/-- C9: the best-buy selection is exactly the three lowest mean-price
rows and the best-sell selection exactly the three highest mean-price
rows of the per-month table, ties resolved towards the smaller original
row position (stable, `keep='first'`): there is a split of the
position-tagged table into the selected rows and the rest such that
every selected row beats every unselected row strictly, or ties with a
strictly smaller original position. -/
theorem identificar_mejores_meses_spec (t : List FilaMes) :
    ∃ selC restC selV restV : List (Nat × FilaMes),
      (identificar_mejores_meses t).1 = selC.map (·.2) ∧
      (selC ++ restC).Perm t.enum ∧
      selC.length = min 3 t.length ∧
      (∀ a ∈ selC, ∀ b ∈ restC,
        a.2.promedio < b.2.promedio ∨ (a.2.promedio = b.2.promedio ∧ a.1 < b.1)) ∧
      (identificar_mejores_meses t).2 = selV.map (·.2) ∧
      (selV ++ restV).Perm t.enum ∧
      selV.length = min 3 t.length ∧
      (∀ a ∈ selV, ∀ b ∈ restV,
        b.2.promedio < a.2.promedio ∨ (a.2.promedio = b.2.promedio ∧ a.1 < b.1)) := by
  obtain ⟨hpermA, hlenA, hcrossA⟩ :=
    sorted_take_drop leAscFila leAscFila_trans leAscFila_total t
  obtain ⟨hpermD, hlenD, hcrossD⟩ :=
    sorted_take_drop leDescFila leDescFila_trans leDescFila_total t
  refine ⟨_, _, _, _, rfl, hpermA, hlenA, ?_, rfl, hpermD, hlenD, ?_⟩
  · intro a ha b hb
    obtain ⟨hle, hne⟩ := hcrossA a ha b hb
    simp only [leAscFila, Bool.or_eq_true, Bool.and_eq_true, decide_eq_true_eq] at hle
    rcases hle with h | ⟨heq, hleq⟩
    · exact Or.inl h
    · exact Or.inr ⟨heq, lt_of_le_of_ne hleq hne⟩
  · intro a ha b hb
    obtain ⟨hle, hne⟩ := hcrossD a ha b hb
    simp only [leDescFila, Bool.or_eq_true, Bool.and_eq_true, decide_eq_true_eq] at hle
    rcases hle with h | ⟨heq, hleq⟩
    · exact Or.inl h
    · exact Or.inr ⟨heq, lt_of_le_of_ne hleq hne⟩

/-! ## C6 -/

theorem isPySpace_eq_false_of_isDigit {c : Char} (h : c.isDigit = true) :
    isPySpace c = false := by
  cases hsp : isPySpace c with
  | false => rfl
  | true =>
    exfalso
    simp only [isPySpace, Bool.or_eq_true, decide_eq_true_eq] at hsp
    rcases hsp with ((((rfl | rfl) | rfl) | rfl) | rfl) | rfl <;> exact absurd h (by decide)

theorem natOfDigits_expand (x y : Char) :
    natOfDigits ['2', '0', x, y] = 2000 + natOfDigits [x, y] := by
  simp only [natOfDigits, List.foldl]
  have h2 : ('2' : Char).toNat = 50 := rfl
  have h0 : ('0' : Char).toNat = 48 := rfl
  rw [h2, h0]
  omega

/-- C6: on every filename of the shape `Del DD-MM-YY al DD-MM-YY`
(arbitrary digits, followed by anything not starting with a digit, such
as `.pdf`), the resolver captures the six digit groups, expands the
two-digit years to `2000 + YY`, and returns both dates when they are
valid calendar dates, and no dates otherwise (invalid dates never
raise). -/
theorem extract_date_from_filename_pattern
    (a1 a2 b1 b2 c1 c2 p1 p2 q1 q2 r1 r2 : Char) (suffix : List Char)
    (ha1 : a1.isDigit = true) (ha2 : a2.isDigit = true)
    (hb1 : b1.isDigit = true) (hb2 : b2.isDigit = true)
    (hc1 : c1.isDigit = true) (hc2 : c2.isDigit = true)
    (hp1 : p1.isDigit = true) (hp2 : p2.isDigit = true)
    (hq1 : q1.isDigit = true) (hq2 : q2.isDigit = true)
    (hr1 : r1.isDigit = true) (hr2 : r2.isDigit = true)
    (hsuf : suffix.head?.all (fun c => !c.isDigit) = true) :
    extract_date_from_filename
      ⟨'D' :: 'e' :: 'l' :: ' ' :: a1 :: a2 :: '-' :: b1 :: b2 :: '-' :: c1 :: c2 ::
        ' ' :: 'a' :: 'l' :: ' ' :: p1 :: p2 :: '-' :: q1 :: q2 :: '-' :: r1 :: r2 :: suffix⟩
      = (if esFechaValida (natOfDigits [a1, a2]) (natOfDigits [b1, b2])
              (2000 + natOfDigits [c1, c2]) &&
            esFechaValida (natOfDigits [p1, p2]) (natOfDigits [q1, q2])
              (2000 + natOfDigits [r1, r2]) then
          some (⟨2000 + natOfDigits [c1, c2], natOfDigits [b1, b2], natOfDigits [a1, a2]⟩,
                ⟨2000 + natOfDigits [r1, r2], natOfDigits [q1, q2], natOfDigits [p1, p2]⟩)
        else none) := by
  have hds : ∀ n, digitsTake (n + 1) suffix = none := by
    cases suffix with
    | nil => intro n; cases n <;> rfl
    | cons c0 cs =>
      intro n
      simp only [List.head?, Option.all, Bool.not_eq_true'] at hsuf
      simp [digitsTake, hsuf]
  have hsp : isPySpace ' ' = true := rfl
  have hdsp : Char.isDigit ' ' = false := rfl
  have hm : matchDatePattern
      ('D' :: 'e' :: 'l' :: ' ' :: a1 :: a2 :: '-' :: b1 :: b2 :: '-' :: c1 :: c2 ::
        ' ' :: 'a' :: 'l' :: ' ' :: p1 :: p2 :: '-' :: q1 :: q2 :: '-' :: r1 :: r2 :: suffix)
      = some ([a1, a2], [b1, b2], [c1, c2], [p1, p2], [q1, q2], [r1, r2]) := by
    simp [matchDatePattern, tryAlts, tryLens, dropExact, expectChar, dropPySpaces, digitsTake,
      hsp, hdsp, hds, ha1, ha2, hb1, hb2, hc1, hc2, hp1, hp2, hq1, hq2, hr1, hr2,
      isPySpace_eq_false_of_isDigit ha1, isPySpace_eq_false_of_isDigit hp1]
  have hsearch : reSearchDate
      ('D' :: 'e' :: 'l' :: ' ' :: a1 :: a2 :: '-' :: b1 :: b2 :: '-' :: c1 :: c2 ::
        ' ' :: 'a' :: 'l' :: ' ' :: p1 :: p2 :: '-' :: q1 :: q2 :: '-' :: r1 :: r2 :: suffix)
      = some ([a1, a2], [b1, b2], [c1, c2], [p1, p2], [q1, q2], [r1, r2]) := by
    rw [show reSearchDate
        ('D' :: 'e' :: 'l' :: ' ' :: a1 :: a2 :: '-' :: b1 :: b2 :: '-' :: c1 :: c2 ::
          ' ' :: 'a' :: 'l' :: ' ' :: p1 :: p2 :: '-' :: q1 :: q2 :: '-' :: r1 :: r2 :: suffix)
        = (matchDatePattern
            ('D' :: 'e' :: 'l' :: ' ' :: a1 :: a2 :: '-' :: b1 :: b2 :: '-' :: c1 :: c2 ::
              ' ' :: 'a' :: 'l' :: ' ' :: p1 :: p2 :: '-' :: q1 :: q2 :: '-' :: r1 :: r2 :: suffix)
          <|> reSearchDate
            ('e' :: 'l' :: ' ' :: a1 :: a2 :: '-' :: b1 :: b2 :: '-' :: c1 :: c2 ::
              ' ' :: 'a' :: 'l' :: ' ' :: p1 :: p2 :: '-' :: q1 :: q2 :: '-' :: r1 :: r2 :: suffix))
        from rfl, hm]
    rfl
  cases hA : esFechaValida (natOfDigits [a1, a2]) (natOfDigits [b1, b2])
      (2000 + natOfDigits [c1, c2]) <;>
    cases hB : esFechaValida (natOfDigits [p1, p2]) (natOfDigits [q1, q2])
        (2000 + natOfDigits [r1, r2]) <;>
      simp [extract_date_from_filename, hsearch, strptimeDMY, natOfDigits_expand, hA, hB]

/-- C6 witness: the spec's example filename resolves to
(2024-03-01, 2024-03-07). -/
theorem extract_date_from_filename_pattern_witness :
    extract_date_from_filename "Del 01-03-24 al 07-03-24.pdf"
      = some (⟨2024, 3, 1⟩, ⟨2024, 3, 7⟩) := by
  have h := extract_date_from_filename_pattern '0' '1' '0' '3' '2' '4' '0' '7' '0' '3' '2' '4'
    ['.', 'p', 'd', 'f'] rfl rfl rfl rfl rfl rfl rfl rfl rfl rfl rfl rfl rfl
  exact h.trans (by decide)

end PreciosGanado
